import Mathlib

/-!
Shallow embedding of the SuperSlideShow scene engine (src/scene.py, src/media.py).

Python dicts keyed by filename / scene name are modelled as association lists
with string keys; dict assignment to a fresh key appends, mutation of the value
stored under an existing key is `setKey`, deletion is a `filter`.  Object
identity of `AudioTrack` / `Scene` instances is modelled by a numeric `id`
field drawn from a fresh-id counter.
-/

/-- Association-list lookup keyed by strings, mirroring Python dict lookup. -/
def lookupKey {α : Type} : List (String × α) → String → Option α
  | [], _ => none
  | (k, v) :: rest, f => if k = f then some v else lookupKey rest f

/-- Mutate the value stored under key `m` in place (Python mutation of `d[m]`). -/
def setKey {α : Type} : List (String × α) → String → (α → α) → List (String × α)
  | [], _, _ => []
  | (k, v) :: rest, m, f => if k = m then (k, f v) :: rest else (k, v) :: setKey rest m f

/-- The list of keys of an association list (Python `d.keys()`, insertion order). -/
def keysOf {α : Type} (l : List (String × α)) : List String := l.map Prod.fst

theorem lookupKey_setKey {α : Type} (l : List (String × α)) (m k : String) (f : α → α) :
    lookupKey (setKey l k f) m = if k = m then (lookupKey l m).map f else lookupKey l m := by
  induction l with
  | nil => simp [setKey, lookupKey]
  | cons hd tl ih =>
    obtain ⟨k', v⟩ := hd
    by_cases hk : k' = k
    · subst hk
      by_cases hm : k' = m
      · subst hm; simp [setKey, lookupKey]
      · simp [setKey, lookupKey, hm]
    · by_cases hm : k' = m
      · subst hm
        have hkm : k ≠ k' := fun h => hk h.symm
        simp [setKey, lookupKey, hk, hkm]
      · simp [setKey, lookupKey, hk, hm, ih]

theorem lookupKey_append_of_some {α : Type} {l₁ : List (String × α)} {m : String} {v : α}
    (h : lookupKey l₁ m = some v) (l₂ : List (String × α)) :
    lookupKey (l₁ ++ l₂) m = some v := by
  induction l₁ with
  | nil => simp [lookupKey] at h
  | cons hd tl ih =>
    obtain ⟨k, w⟩ := hd
    by_cases hk : k = m
    · subst hk; simp_all [lookupKey]
    · simp [lookupKey, hk] at h ⊢; exact ih h

theorem lookupKey_append_of_none {α : Type} {l₁ : List (String × α)} {m : String}
    (h : lookupKey l₁ m = none) (l₂ : List (String × α)) :
    lookupKey (l₁ ++ l₂) m = lookupKey l₂ m := by
  induction l₁ with
  | nil => simp
  | cons hd tl ih =>
    obtain ⟨k, w⟩ := hd
    by_cases hk : k = m
    · subst hk; simp [lookupKey] at h
    · simp [lookupKey, hk] at h ⊢; exact ih h

theorem lookupKey_eq_none_iff {α : Type} (l : List (String × α)) (m : String) :
    lookupKey l m = none ↔ m ∉ keysOf l := by
  induction l with
  | nil => simp [lookupKey, keysOf]
  | cons hd tl ih =>
    obtain ⟨k, v⟩ := hd
    by_cases hk : k = m
    · subst hk; simp [lookupKey, keysOf]
    · have hk' : m ≠ k := fun h => hk h.symm
      simp [lookupKey, keysOf, hk, hk', ih]

theorem keysOf_setKey {α : Type} (l : List (String × α)) (k : String) (f : α → α) :
    keysOf (setKey l k f) = keysOf l := by
  induction l with
  | nil => rfl
  | cons hd tl ih =>
    obtain ⟨k', v⟩ := hd
    by_cases hk : k' = k <;> simp [setKey, keysOf, hk] at ih ⊢ <;> simp [ih]

theorem mem_setKey {α : Type} {l : List (String × α)} {k : String} {f : α → α}
    {p : String × α} (h : p ∈ setKey l k f) :
    p ∈ l ∨ ∃ q ∈ l, p = (q.1, f q.2) := by
  induction l with
  | nil => simp [setKey] at h
  | cons hd tl ih =>
    obtain ⟨k', v⟩ := hd
    by_cases hk : k' = k
    · subst hk
      simp [setKey] at h
      rcases h with h | h
      · exact Or.inr ⟨(k', v), by simp, h⟩
      · exact Or.inl (List.mem_cons_of_mem _ h)
    · simp [setKey, hk] at h
      rcases h with h | h
      · exact Or.inl (by simp [h])
      · rcases ih h with h' | ⟨q, hq, hpq⟩
        · exact Or.inl (List.mem_cons_of_mem _ h')
        · exact Or.inr ⟨q, List.mem_cons_of_mem _ hq, hpq⟩

/-! ### Audio model (media.py `AudioTrack`, scene.py `Scene.start_audio` and the
audio-reconciliation pass of `SceneManager._complete_transition`). -/

/-- One entry of a scene's `audio:` spec list (scene.py stores the raw YAML dict;
only the fields the engine reads are modelled). -/
structure AudioSpec where
  file : String
  start : Option Nat := none
  loop : Bool := false
  delay : Nat := 0
deriving DecidableEq, Repr

/-- Observable state of one `AudioTrack` (media.py lines 104-168).  `id` models
Python object identity (fresh per construction). -/
structure AudioTrack where
  id : Nat
  position : Nat
  playing : Bool
deriving DecidableEq, Repr

/-- The SceneManager's audio registry `active_audio_tracks` (scene.py line 406)
plus the fresh-id counter modelling object creation. -/
structure AudioState where
  reg : List (String × AudioTrack)
  nextId : Nat
deriving DecidableEq, Repr

/-- Reposition the registered track for `f`
(`existing_track.player.setPosition(start_pos)`, scene.py line 182). -/
def regSetPos (reg : List (String × AudioTrack)) (f : String) (p : Nat) :
    List (String × AudioTrack) :=
  setKey reg f (fun t => { t with position := p })

/-- One iteration of the `for aspec in self.audio_specs` loop of
`Scene.start_audio` (scene.py lines 171-205): an already-registered filename is
repositioned to `start` (default 0) on back navigation and left untouched going
forward; an unregistered filename gets a freshly constructed `AudioTrack`
(position = `start` honored only going back, else 0; `play()` sets it playing)
registered under the filename. -/
def startAudioStep (isBack : Bool) (st : AudioState) (aspec : AudioSpec) : AudioState :=
  match lookupKey st.reg aspec.file with
  | some _ =>
      if isBack then { st with reg := regSetPos st.reg aspec.file (aspec.start.getD 0) }
      else st
  | none =>
      let startPos := if isBack then aspec.start.getD 0 else 0
      { reg := st.reg ++ [(aspec.file, { id := st.nextId, position := startPos, playing := true })],
        nextId := st.nextId + 1 }

/-- `Scene.start_audio` (scene.py lines 147-207).  Returns the new registry
state and the returned filename set (`current_files`, or the registry's keys
when the scene has no audio specs).  A scene with no audio specs resets every
registered track to position 0 on back navigation and otherwise leaves the
registry untouched. -/
def startAudio (specs : List AudioSpec) (isBack : Bool) (st : AudioState) :
    AudioState × List String :=
  if specs.isEmpty then
    let st' :=
      if isBack then { st with reg := st.reg.map (fun p => (p.1, { p.2 with position := 0 })) }
      else st
    (st', keysOf st'.reg)
  else
    (specs.foldl (startAudioStep isBack) st, specs.map AudioSpec.file)

/-- The stop-and-deregister pass of `SceneManager._complete_transition`
(scene.py lines 530-573): both the forward and the backward branch stop and
remove exactly the registered tracks whose filename the target scene's audio
specs do not name (removal of a stopped track models `at.stop()` followed by
`del self.active_audio_tracks[filename]`). -/
def stopAbsent (newFiles : List String) (st : AudioState) : AudioState :=
  { st with reg := st.reg.filter (fun p => decide (p.1 ∈ newFiles)) }

/-- Audio effect of one complete transition into a scene with audio specs
`specs`: the `_complete_transition` stop pass followed by `Scene.start_audio`
(called from `Scene.start`, scene.py line 226). -/
def transitionAudio (specs : List AudioSpec) (isBack : Bool) (st : AudioState) :
    AudioState × List String :=
  startAudio specs isBack (stopAbsent (specs.map AudioSpec.file) st)

/-! ### Registry lemmas -/

theorem lookupKey_filter_of_mem {newFiles : List String} {f : String}
    (l : List (String × AudioTrack)) (hf : f ∈ newFiles) :
    lookupKey (l.filter (fun p => decide (p.1 ∈ newFiles))) f = lookupKey l f := by
  induction l with
  | nil => rfl
  | cons hd tl ih =>
    obtain ⟨k, v⟩ := hd
    by_cases hk : k = f
    · subst hk
      simp [List.filter, lookupKey, hf]
    · by_cases hmem : k ∈ newFiles
      · simp [List.filter, lookupKey, hmem, hk, ih]
      · simp [List.filter, lookupKey, hmem, hk, ih]

theorem startAudioLoop_lookup_of_not_mem {f : String} {specs : List AudioSpec}
    (hf : f ∉ specs.map AudioSpec.file) (isBack : Bool) (st : AudioState) :
    lookupKey (specs.foldl (startAudioStep isBack) st).reg f = lookupKey st.reg f := by
  induction specs generalizing st with
  | nil => rfl
  | cons a rest ih =>
    have haf : a.file ≠ f := by
      intro h; exact hf (by simp [h])
    have hrest : f ∉ rest.map AudioSpec.file := by
      intro h; exact hf (by simp [h])
    rw [List.foldl_cons, ih hrest]
    unfold startAudioStep
    cases hlk : lookupKey st.reg a.file with
    | some t =>
      cases isBack with
      | false => rfl
      | true => simp [regSetPos, lookupKey_setKey, haf]
    | none =>
      simp only
      cases hlf : lookupKey st.reg f with
      | some v => exact lookupKey_append_of_some hlf _
      | none =>
        rw [lookupKey_append_of_none hlf]
        simp [lookupKey, haf]

theorem startAudioLoop_forward_keeps {f : String} {t : AudioTrack}
    (specs : List AudioSpec) (st : AudioState) (hreg : lookupKey st.reg f = some t) :
    lookupKey (specs.foldl (startAudioStep false) st).reg f = some t := by
  induction specs generalizing st with
  | nil => exact hreg
  | cons a rest ih =>
    rw [List.foldl_cons]
    apply ih
    unfold startAudioStep
    cases hlk : lookupKey st.reg a.file with
    | some _ => exact hreg
    | none =>
      simp only
      exact lookupKey_append_of_some hreg _

theorem startAudioLoop_back_repositions {f : String} {t : AudioTrack}
    (specs : List AudioSpec) (st : AudioState) (hreg : lookupKey st.reg f = some t)
    {s : AudioSpec} (hs : s ∈ specs) (hf : s.file = f)
    (hcount : (specs.map AudioSpec.file).count f = 1) :
    lookupKey (specs.foldl (startAudioStep true) st).reg f =
      some { t with position := s.start.getD 0 } := by
  induction specs generalizing st with
  | nil => simp at hs
  | cons a rest ih =>
    by_cases haf : a.file = f
    · -- the head names f: it must be the unique occurrence, so s = a
      have hnorest : f ∉ rest.map AudioSpec.file := by
        intro hmem
        have h1 : 1 ≤ (rest.map AudioSpec.file).count f := List.one_le_count_iff.2 hmem
        simp [haf] at hcount
        omega
      have hsa : s = a := by
        rcases List.mem_cons.1 hs with h | h
        · exact h
        · exact absurd (List.mem_map.2 ⟨s, h, hf⟩) hnorest
      subst hsa
      rw [List.foldl_cons, startAudioLoop_lookup_of_not_mem hnorest]
      unfold startAudioStep
      rw [hf, hreg]
      simp [regSetPos, lookupKey_setKey, hreg]
    · -- the head names another file: the step keeps f's entry untouched
      have hs' : s ∈ rest := by
        rcases List.mem_cons.1 hs with h | h
        · exact absurd (h ▸ hf) haf
        · exact h
      have hcount' : (rest.map AudioSpec.file).count f = 1 := by
        simpa [List.count_cons, haf] using hcount
      rw [List.foldl_cons]
      have hkeep : lookupKey (startAudioStep true st a).reg f = some t := by
        unfold startAudioStep
        cases hlk : lookupKey st.reg a.file with
        | some _ => simp [regSetPos, lookupKey_setKey, haf, hreg]
        | none =>
          simp only
          exact lookupKey_append_of_some hreg _
      exact ih _ hkeep hs' hcount'

/-- Registry well-formedness: at most one entry per filename (dict keys are
unique) and every registered track is playing (stopped tracks get deleted). -/
def regWF (reg : List (String × AudioTrack)) : Prop :=
  (keysOf reg).Nodup ∧ ∀ p ∈ reg, p.2.playing = true

theorem regWF_filter {reg : List (String × AudioTrack)} (h : regWF reg)
    (pred : String × AudioTrack → Bool) : regWF (reg.filter pred) := by
  constructor
  · exact h.1.sublist (List.Sublist.map _ (List.filter_sublist _))
  · intro p hp
    exact h.2 p (List.mem_of_mem_filter hp)

theorem regWF_startAudioStep {st : AudioState} (h : regWF st.reg) (isBack : Bool)
    (aspec : AudioSpec) : regWF (startAudioStep isBack st aspec).reg := by
  unfold startAudioStep
  cases hlk : lookupKey st.reg aspec.file with
  | some t =>
    cases isBack with
    | false => exact h
    | true =>
      simp only [if_true]
      constructor
      · rw [regSetPos, keysOf_setKey]; exact h.1
      · intro p hp
        rcases mem_setKey hp with hp' | ⟨q, hq, rfl⟩
        · exact h.2 p hp'
        · exact h.2 q hq
  | none =>
    simp only
    constructor
    · have hnotin : aspec.file ∉ keysOf st.reg := (lookupKey_eq_none_iff _ _).1 hlk
      simp only [keysOf, List.map_append, List.map_cons, List.map_nil]
      rw [List.nodup_append]
      refine ⟨h.1, List.nodup_singleton _, ?_⟩
      intro a ha hmem
      simp only [List.mem_singleton] at hmem
      subst hmem
      exact hnotin ha
    · intro p hp
      rcases List.mem_append.1 hp with hp' | hp'
      · exact h.2 p hp'
      · simp only [List.mem_singleton] at hp'
        simp [hp']

theorem regWF_startAudio {st : AudioState} (h : regWF st.reg)
    (specs : List AudioSpec) (isBack : Bool) :
    regWF ((startAudio specs isBack st).1).reg := by
  unfold startAudio
  by_cases hempty : specs.isEmpty
  · simp only [hempty, if_true]
    cases isBack with
    | false => exact h
    | true =>
      constructor
      · have : keysOf (st.reg.map (fun p => (p.1, { p.2 with position := 0 }))) =
            keysOf st.reg := by
          simp [keysOf, List.map_map, Function.comp]
        simpa [this] using h.1
      · intro p hp
        rcases List.mem_map.1 hp with ⟨q, hq, rfl⟩
        exact h.2 q hq
  · simp only [hempty, if_false]
    induction specs generalizing st with
    | nil => exact h
    | cons a rest ih =>
      rw [List.foldl_cons]
      by_cases hr : rest.isEmpty
      · have : rest = [] := List.isEmpty_iff.1 hr
        subst this
        exact regWF_startAudioStep h isBack a
      · exact ih (regWF_startAudioStep h isBack a) hr

theorem regWF_transitionAudio {st : AudioState} (h : regWF st.reg)
    (specs : List AudioSpec) (isBack : Bool) :
    regWF ((transitionAudio specs isBack st).1).reg :=
  regWF_startAudio (regWF_filter h _) specs isBack

/-! ### Claims C1-C3 -/

/-- C1: the spec claims that a transition into a scene with an empty audio-spec
list leaves every registered track registered and playing.  In the code,
`_complete_transition` computes `new_audio_files` from the target's audio specs
*before* `start_audio` runs and stops-and-deletes every registered track whose
filename is not in that set; with no audio specs that set is empty, so every
track is stopped and deregistered and the inheritance branch of `start_audio`
then iterates over an already-empty registry.  This theorem evaluates the code
on that path: for every starting registry, a transition (either direction) into
a scene with no audio specs leaves the registry empty. -/
theorem audio_emptySpecs_clears_registry (isBack : Bool) (st : AudioState) :
    ((transitionAudio [] isBack st).1).reg = [] := by
  cases isBack <;> simp [transitionAudio, stopAbsent, startAudio, keysOf]

/-- C2: a forward transition into a scene naming an already-registered audio
file keeps the very same track record (same instance id, same position)
registered under that filename; a backward transition repositions that same
instance to the target spec's `start` offset (default 0). -/
theorem audio_shared_file_transition (st : AudioState) (specs : List AudioSpec)
    (f : String) (t : AudioTrack)
    (hreg : lookupKey st.reg f = some t) (hmem : f ∈ specs.map AudioSpec.file) :
    lookupKey ((transitionAudio specs false st).1).reg f = some t ∧
    (∀ s ∈ specs, s.file = f → (specs.map AudioSpec.file).count f = 1 →
      lookupKey ((transitionAudio specs true st).1).reg f =
        some { t with position := s.start.getD 0 }) := by
  have hne : specs.isEmpty = false := by
    cases specs with
    | nil => simp at hmem
    | cons a r => rfl
  have hkeep : lookupKey (stopAbsent (specs.map AudioSpec.file) st).reg f = some t := by
    unfold stopAbsent
    simpa using (lookupKey_filter_of_mem st.reg hmem).trans hreg
  constructor
  · simp only [transitionAudio, startAudio, hne, Bool.false_eq_true, if_false]
    exact startAudioLoop_forward_keeps specs _ hkeep
  · intro s hs hf hcount
    simp only [transitionAudio, startAudio, hne, Bool.false_eq_true, if_false]
    exact startAudioLoop_back_repositions specs _ hkeep hs hf hcount

theorem audio_shared_file_transition_witness :
    lookupKey ((transitionAudio [{ file := "a.mp3", start := some 30 }] false
        ⟨[("a.mp3", ⟨0, 500, true⟩)], 1⟩).1).reg "a.mp3" = some ⟨0, 500, true⟩ ∧
    lookupKey ((transitionAudio [{ file := "a.mp3", start := some 30 }] true
        ⟨[("a.mp3", ⟨0, 500, true⟩)], 1⟩).1).reg "a.mp3" = some ⟨0, 30, true⟩ := by
  have h := audio_shared_file_transition ⟨[("a.mp3", ⟨0, 500, true⟩)], 1⟩
    [{ file := "a.mp3", start := some 30 }] "a.mp3" ⟨0, 500, true⟩
    (by simp [lookupKey]) (by simp)
  exact ⟨h.1, h.2 { file := "a.mp3", start := some 30 } (by simp) rfl (by simp)⟩

/-- C3: after any sequence of forward/backward transitions (each one being the
stop/deregister pass of `_complete_transition` followed by
`Scene.start_audio`), the audio registry still has pairwise-distinct filename
keys (at most one live track per filename) and only playing tracks (a stopped
track is always removed from the map). -/
theorem audio_registry_unique_invariant (steps : List (List AudioSpec × Bool))
    (st : AudioState) (h : regWF st.reg) :
    regWF ((steps.foldl (fun s p => (transitionAudio p.1 p.2 s).1) st).reg) := by
  induction steps generalizing st with
  | nil => exact h
  | cons a rest ih => exact ih _ (regWF_transitionAudio h a.1 a.2)

theorem audio_registry_unique_invariant_witness :
    regWF (([([{ file := "a.mp3" : AudioSpec }], false),
             ([{ file := "a.mp3" }, { file := "b.mp3" }], true),
             ([{ file := "b.mp3" }], false)].foldl
        (fun s p => (transitionAudio p.1 p.2 s).1) ⟨[], 0⟩).reg) := by
  exact audio_registry_unique_invariant _ ⟨[], 0⟩ (by constructor <;> simp [keysOf])

/-! ### Video layer model (media.py `VideoLayer`) -/

/-- One entry of a scene's `videos:` spec list (media.py reads file/loop/delay
plus geometry fields the model does not track). -/
structure VideoSpec where
  file : String
  loop : Bool := false
  delay : Nat := 0
deriving DecidableEq, Repr

/-- Observable state of one `VideoLayer` (media.py lines 8-101): the player's
position and playing flag, the graphics item's visibility, the loop flag, the
pending-transition mark, and whether the player has media loaded
(`mediaStatus() != NoMedia`). -/
structure VideoLayerState where
  file : String
  loop : Bool
  delay : Nat
  position : Nat
  playing : Bool
  visible : Bool
  pendingTransition : Bool
  mediaLoaded : Bool
deriving DecidableEq, Repr

/-- VideoLayer state as constructed from its spec (media.py lines 13-42). -/
def mkVideoLayer (vs : VideoSpec) : VideoLayerState :=
  { file := vs.file, loop := vs.loop, delay := vs.delay, position := 0,
    playing := false, visible := true, pendingTransition := false, mediaLoaded := false }

/-- Media status values distinguished by the model; the handler only reacts to
`EndOfMedia`. -/
inductive MediaStatus where
  | endOfMedia
  | otherStatus
deriving DecidableEq, Repr

/-- Events a `VideoLayer` emits (media.py signals `video_ended`,
`loop_completed`). -/
inductive VideoEvent where
  | loopCompleted
  | videoEnded
deriving DecidableEq, Repr

/-- `VideoLayer._handle_media_status` (media.py lines 51-62).  On end of media:
a looping layer always emits `loop_completed`; if its transition is pending it
returns without restarting, otherwise it seeks to 0 and plays again; a
non-looping layer emits `video_ended`. -/
def handleMediaStatus (status : MediaStatus) (vl : VideoLayerState) :
    VideoLayerState × List VideoEvent :=
  match status with
  | .endOfMedia =>
    if vl.loop then
      if vl.pendingTransition then (vl, [.loopCompleted])
      else ({ vl with position := 0, playing := true }, [.loopCompleted])
    else (vl, [.videoEnded])
  | .otherStatus => (vl, [])

/-- `VideoLayer.request_transition` (media.py lines 64-65). -/
def VideoLayerState.requestTransition (vl : VideoLayerState) : VideoLayerState :=
  { vl with pendingTransition := true }

/-- `VideoLayer.preload` (media.py lines 72-74): show the item and pause the
player, which loads the media. -/
def VideoLayerState.preload (vl : VideoLayerState) : VideoLayerState :=
  { vl with visible := true, mediaLoaded := true }

/-- `VideoLayer.play` (media.py lines 76-87): show, clear the pending mark,
seek to zero and play (the optional delayed start is modelled as started). -/
def VideoLayerState.play (vl : VideoLayerState) : VideoLayerState :=
  { vl with visible := true, pendingTransition := false, position := 0,
            playing := true, mediaLoaded := true }

/-- `VideoLayer.stop` (media.py lines 92-96). -/
def VideoLayerState.stop (vl : VideoLayerState) : VideoLayerState :=
  { vl with playing := false, position := 0, visible := false, pendingTransition := false }

/-- `VideoLayer.reset_and_reload` (media.py lines 98-101). -/
def VideoLayerState.resetAndReload (vl : VideoLayerState) : VideoLayerState :=
  { vl with playing := false, position := 0 }

/-- Inline `vl.player.stop(); vl.player.setPosition(0); vl.item.hide()` used by
`_complete_transition` (scene.py lines 726-729 etc.); unlike `VideoLayer.stop`
it does not clear the pending-transition mark. -/
def stopHideLayer (vl : VideoLayerState) : VideoLayerState :=
  { vl with playing := false, position := 0, visible := false }

/-! ### Claim C4 -/

/-- C4: on end of media, a looping layer with no pending transition restarts
from position zero and keeps playing; a looping layer with a pending
transition is left exactly as it is (no position reset, no play) and exactly
one `loopCompleted` event is emitted; a non-looping layer emits `videoEnded`. -/
theorem video_end_of_media_behaviour (vl : VideoLayerState) :
    (vl.loop = true → vl.pendingTransition = false →
      handleMediaStatus .endOfMedia vl =
        ({ vl with position := 0, playing := true }, [.loopCompleted])) ∧
    (vl.loop = true → vl.pendingTransition = true →
      (handleMediaStatus .endOfMedia vl).1 = vl ∧
      ((handleMediaStatus .endOfMedia vl).2.count .loopCompleted = 1)) ∧
    (vl.loop = false → (handleMediaStatus .endOfMedia vl).2 = [.videoEnded]) := by
  refine ⟨?_, ?_, ?_⟩
  · intro hl hp; simp [handleMediaStatus, hl, hp]
  · intro hl hp; simp [handleMediaStatus, hl, hp]
  · intro hl; simp [handleMediaStatus, hl]

theorem video_end_of_media_behaviour_witness :
    (handleMediaStatus .endOfMedia
        { file := "v.mp4", loop := true, delay := 0, position := 900, playing := true,
          visible := true, pendingTransition := false, mediaLoaded := true } =
      ({ file := "v.mp4", loop := true, delay := 0, position := 0, playing := true,
         visible := true, pendingTransition := false, mediaLoaded := true },
       [.loopCompleted])) ∧
    ((handleMediaStatus .endOfMedia
        { file := "v.mp4", loop := true, delay := 0, position := 900, playing := true,
          visible := true, pendingTransition := true, mediaLoaded := true }).1 =
      { file := "v.mp4", loop := true, delay := 0, position := 900, playing := true,
        visible := true, pendingTransition := true, mediaLoaded := true } ∧
      (handleMediaStatus .endOfMedia
        { file := "v.mp4", loop := true, delay := 0, position := 900, playing := true,
          visible := true, pendingTransition := true, mediaLoaded := true }).2.count
          .loopCompleted = 1) ∧
    ((handleMediaStatus .endOfMedia
        { file := "v.mp4", loop := false, delay := 0, position := 900, playing := true,
          visible := true, pendingTransition := false, mediaLoaded := true }).2 =
      [.videoEnded]) := by
  refine ⟨?_, ?_, ?_⟩
  · exact (video_end_of_media_behaviour _).1 rfl rfl
  · exact (video_end_of_media_behaviour _).2.1 rfl rfl
  · exact (video_end_of_media_behaviour _).2.2 rfl

/-! ### Scene model (scene.py `Scene`) -/

/-- One entry of a scene's `overlays:` spec list. -/
structure OverlaySpec where
  otype : String := "image"
  activeOnEnd : Bool := false
deriving DecidableEq, Repr

/-- One entry of `arrow_positions:`; only the bound target scene matters to the
model (the sx/sy/x/y coordinates drive untracked geometry). -/
structure ArrowPos where
  scene : Option String := none
deriving DecidableEq, Repr

/-- A parsed scene definition (the YAML dict a Scene is built from, §6 of the
spec; scene.py reads these keys via `spec.get`). -/
structure SceneDef where
  videos : List VideoSpec := []
  audio : List AudioSpec := []
  overlays : List OverlaySpec := []
  arrowPositions : List ArrowPos := []
  transitions : List (String × String) := []
  nextScene : Option String := none
  backScene : Option String := none
  allowSkip : Bool := false
  moveSound : Option String := none
  selectSound : Option String := none
deriving DecidableEq, Repr

/-- A captured video frame (width/height of the snapshot pixmap). -/
structure Pixmap where
  w : Nat
  h : Nat
deriving DecidableEq, Repr

/-- The static inherited background installed by `_complete_transition`
(scene.py lines 692-708): the captured pixmap plus the uniform scale and
position applied by `_resize_static_background`. -/
structure Background where
  pix : Pixmap
  scale : ℚ
  posX : ℚ
  posY : ℚ
deriving DecidableEq, Repr

/-- Runtime state of one overlay layer (media.py `OverlayLayer`). -/
structure OverlayState where
  otype : String
  activeOnEnd : Bool
  visible : Bool
deriving DecidableEq, Repr

/-- Runtime state of one `Scene` instance (scene.py lines 8-92).  `instId`
models Python object identity (scenes are cached and shared). -/
structure SceneRT where
  name : String
  spec : SceneDef
  videoLayers : List VideoLayerState
  overlays : List OverlayState
  pendingSceneTransition : Option String
  currentArrowIndex : Int
  moveSound : Option AudioTrack
  selectSound : Option AudioTrack
  inheritedBackground : Option Background
  instId : Nat
deriving DecidableEq, Repr

/-- `Scene.__init__` (scene.py lines 9-92).  At construction time the
`scene_manager` attribute is not yet set (it is patched in afterwards by
`_connect_scene_manager`), so the `hasattr(self, 'scene_manager')` check for
preloaded sounds is always false and move/select sounds are always created
locally with position reset to 0 and not yet playing. -/
def buildScene (name : String) (spec : SceneDef) (instId : Nat) : SceneRT :=
  { name := name, spec := spec,
    videoLayers := spec.videos.map mkVideoLayer,
    overlays := spec.overlays.map
      (fun o => { otype := o.otype, activeOnEnd := o.activeOnEnd, visible := false }),
    pendingSceneTransition := none,
    currentArrowIndex := 0,
    moveSound := spec.moveSound.map (fun _ => { id := 0, position := 0, playing := false }),
    selectSound := spec.selectSound.map (fun _ => { id := 0, position := 0, playing := false }),
    inheritedBackground := none,
    instId := instId }

/-- The scene's `active_overlay`: the first overlay of type "arrow"
(scene.py lines 43-47; the overlay list is never reordered, so looking it up
by position is the stored reference). -/
def SceneRT.activeOverlay (sc : SceneRT) : Option OverlayState :=
  sc.overlays.find? (fun ov => decide (ov.otype = "arrow"))

/-- Stop-reset-replay applied to a sound effect
(`player.stop(); player.setPosition(0); player.play()`). -/
def playSoundEffect (t : AudioTrack) : AudioTrack :=
  { t with position := 0, playing := true }

/-- `Scene.move_arrow_up` (scene.py lines 343-359).  Returns unchanged when
there is no active overlay, it is not visible, or there are no arrow
positions; otherwise rotates the index with Python's `(i - 1) % n` semantics
(`Int.emod` has the same sign convention for a positive modulus) and restarts
the move sound.  `_update_arrow_position` only moves untracked geometry. -/
def SceneRT.moveArrowUp (sc : SceneRT) : SceneRT :=
  match sc.activeOverlay with
  | none => sc
  | some ov =>
    if !ov.visible then sc
    else if sc.spec.arrowPositions.isEmpty then sc
    else
      { sc with
        currentArrowIndex :=
          (sc.currentArrowIndex - 1).emod (sc.spec.arrowPositions.length : Int),
        moveSound := sc.moveSound.map playSoundEffect }

/-- `Scene.move_arrow_down` (scene.py lines 361-377). -/
def SceneRT.moveArrowDown (sc : SceneRT) : SceneRT :=
  match sc.activeOverlay with
  | none => sc
  | some ov =>
    if !ov.visible then sc
    else if sc.spec.arrowPositions.isEmpty then sc
    else
      { sc with
        currentArrowIndex :=
          (sc.currentArrowIndex + 1).emod (sc.spec.arrowPositions.length : Int),
        moveSound := sc.moveSound.map playSoundEffect }

/-- `Scene.request_scene_transition` (scene.py lines 119-132): with any looping
owned video, remember the pending target and arm every layer, deferring the
switch; with none, request the forward switch immediately (the second
component is the scene name passed to `scene_manager.switch_to_forward`). -/
def SceneRT.requestSceneTransition (name : String) (sc : SceneRT) :
    SceneRT × Option String :=
  if sc.videoLayers.any (fun vl => vl.loop) then
    ({ sc with pendingSceneTransition := some name,
               videoLayers := sc.videoLayers.map VideoLayerState.requestTransition }, none)
  else (sc, some name)

/-- `Scene._handle_loop_completed` (scene.py lines 110-117): fire and clear the
pending transition, if any. -/
def SceneRT.handleLoopCompleted (sc : SceneRT) : SceneRT × Option String :=
  match sc.pendingSceneTransition with
  | some n => ({ sc with pendingSceneTransition := none }, some n)
  | none => (sc, none)

/-- `Scene.start` (scene.py lines 209-240): arrow overlays of a menu scene show
immediately and all other overlays hide; the arrow index resets to 0; audio is
reconciled via `start_audio`; unless video is inherited every owned layer is
reset to zero and played. -/
def SceneRT.start (isBack inheritVideo : Bool) (sc : SceneRT) (ast : AudioState) :
    SceneRT × AudioState × List String :=
  let sc₁ : SceneRT := { sc with
    overlays := sc.overlays.map (fun ov =>
      if !sc.spec.arrowPositions.isEmpty && decide (ov.otype = "arrow") then
        { ov with visible := true }
      else { ov with visible := false }),
    currentArrowIndex := 0 }
  let res := startAudio sc₁.spec.audio isBack ast
  let sc₂ : SceneRT :=
    if !inheritVideo then
      { sc₁ with videoLayers :=
          (sc₁.videoLayers.map VideoLayerState.resetAndReload).map VideoLayerState.play }
    else sc₁
  (sc₂, res.1, res.2)

/-- `Scene.stop` (scene.py lines 335-341): stop every owned video layer and
hide every overlay; audio is deliberately left to the SceneManager. -/
def SceneRT.stopScene (sc : SceneRT) : SceneRT :=
  { sc with videoLayers := sc.videoLayers.map VideoLayerState.stop,
            overlays := sc.overlays.map (fun ov => { ov with visible := false }) }

/-- The scene's `auto_transition` attribute (scene.py line 57): the `next_scene`
target, suppressed when the scene has arrow positions. -/
def SceneRT.autoTransition (sc : SceneRT) : Option String :=
  if sc.spec.arrowPositions.isEmpty then sc.spec.nextScene else none

/-! ### Claims C5, C9, C10 -/

/-- A single up/down command from the keyboard handler. -/
inductive ArrowMove where
  | up
  | down
deriving DecidableEq, Repr

/-- Apply a sequence of arrow moves to a scene. -/
def applyArrowMoves (moves : List ArrowMove) (sc : SceneRT) : SceneRT :=
  moves.foldl (fun s m => match m with
    | .up => s.moveArrowUp
    | .down => s.moveArrowDown) sc

theorem moveArrowUp_spec_eq (sc : SceneRT) : sc.moveArrowUp.spec = sc.spec := by
  unfold SceneRT.moveArrowUp
  cases sc.activeOverlay with
  | none => rfl
  | some ov =>
    by_cases h : ov.visible <;> by_cases h2 : sc.spec.arrowPositions.isEmpty <;>
      simp [h, h2]

theorem moveArrowDown_spec_eq (sc : SceneRT) : sc.moveArrowDown.spec = sc.spec := by
  unfold SceneRT.moveArrowDown
  cases sc.activeOverlay with
  | none => rfl
  | some ov =>
    by_cases h : ov.visible <;> by_cases h2 : sc.spec.arrowPositions.isEmpty <;>
      simp [h, h2]

theorem moveArrowUp_index_range (sc : SceneRT)
    (h0 : 0 ≤ sc.currentArrowIndex)
    (h1 : sc.currentArrowIndex < (sc.spec.arrowPositions.length : Int)) :
    0 ≤ sc.moveArrowUp.currentArrowIndex ∧
      sc.moveArrowUp.currentArrowIndex < (sc.spec.arrowPositions.length : Int) := by
  unfold SceneRT.moveArrowUp
  cases sc.activeOverlay with
  | none => exact ⟨h0, h1⟩
  | some ov =>
    by_cases h : ov.visible
    · by_cases h2 : sc.spec.arrowPositions.isEmpty
      · simp [h, h2]; exact ⟨h0, h1⟩
      · have hn : (0 : Int) < (sc.spec.arrowPositions.length : Int) := by
          have : sc.spec.arrowPositions ≠ [] := by
            intro he; rw [he] at h2; exact h2 rfl
          have : 0 < sc.spec.arrowPositions.length := List.length_pos.2 this
          exact_mod_cast this
        simp only [h, h2, Bool.not_true, if_false, Bool.false_eq_true]
        exact ⟨Int.emod_nonneg _ (by omega), Int.emod_lt_of_pos _ hn⟩
    · simp only [Bool.not_eq_true] at h
      simp [h]; exact ⟨h0, h1⟩

theorem moveArrowDown_index_range (sc : SceneRT)
    (h0 : 0 ≤ sc.currentArrowIndex)
    (h1 : sc.currentArrowIndex < (sc.spec.arrowPositions.length : Int)) :
    0 ≤ sc.moveArrowDown.currentArrowIndex ∧
      sc.moveArrowDown.currentArrowIndex < (sc.spec.arrowPositions.length : Int) := by
  unfold SceneRT.moveArrowDown
  cases sc.activeOverlay with
  | none => exact ⟨h0, h1⟩
  | some ov =>
    by_cases h : ov.visible
    · by_cases h2 : sc.spec.arrowPositions.isEmpty
      · simp [h, h2]; exact ⟨h0, h1⟩
      · have hn : (0 : Int) < (sc.spec.arrowPositions.length : Int) := by
          have : sc.spec.arrowPositions ≠ [] := by
            intro he; rw [he] at h2; exact h2 rfl
          have : 0 < sc.spec.arrowPositions.length := List.length_pos.2 this
          exact_mod_cast this
        simp only [h, h2, Bool.not_true, if_false, Bool.false_eq_true]
        exact ⟨Int.emod_nonneg _ (by omega), Int.emod_lt_of_pos _ hn⟩
    · simp only [Bool.not_eq_true] at h
      simp [h]; exact ⟨h0, h1⟩

theorem applyArrowMoves_index_range (moves : List ArrowMove) (sc : SceneRT)
    (h0 : 0 ≤ sc.currentArrowIndex)
    (h1 : sc.currentArrowIndex < (sc.spec.arrowPositions.length : Int)) :
    0 ≤ (applyArrowMoves moves sc).currentArrowIndex ∧
      (applyArrowMoves moves sc).currentArrowIndex <
        (sc.spec.arrowPositions.length : Int) := by
  induction moves generalizing sc with
  | nil => exact ⟨h0, h1⟩
  | cons m ms ih =>
    cases m with
    | up =>
      have step : applyArrowMoves (ArrowMove.up :: ms) sc =
          applyArrowMoves ms sc.moveArrowUp := rfl
      rw [step]
      have h' := moveArrowUp_index_range sc h0 h1
      have hspec := moveArrowUp_spec_eq sc
      have hres := ih sc.moveArrowUp h'.1 (by rw [hspec]; exact h'.2)
      rw [hspec] at hres
      exact hres
    | down =>
      have step : applyArrowMoves (ArrowMove.down :: ms) sc =
          applyArrowMoves ms sc.moveArrowDown := rfl
      rw [step]
      have h' := moveArrowDown_index_range sc h0 h1
      have hspec := moveArrowDown_spec_eq sc
      have hres := ih sc.moveArrowDown h'.1 (by rw [hspec]; exact h'.2)
      rw [hspec] at hres
      exact hres

/-- C5: starting from an in-range arrow index, any sequence of up/down moves
keeps the index in `[0, len(arrow_positions))`; with the arrow overlay
visible the index wraps at both ends (0 moved up becomes len-1, len-1 moved
down becomes 0); with the overlay absent or not visible a move leaves the
index unchanged. -/
theorem arrow_navigation_invariant (sc : SceneRT) (moves : List ArrowMove)
    (h0 : 0 ≤ sc.currentArrowIndex)
    (h1 : sc.currentArrowIndex < (sc.spec.arrowPositions.length : Int)) :
    (0 ≤ (applyArrowMoves moves sc).currentArrowIndex ∧
      (applyArrowMoves moves sc).currentArrowIndex <
        (sc.spec.arrowPositions.length : Int)) ∧
    (∀ ov, sc.activeOverlay = some ov → ov.visible = true →
      (sc.currentArrowIndex = 0 →
        sc.moveArrowUp.currentArrowIndex = (sc.spec.arrowPositions.length : Int) - 1) ∧
      (sc.currentArrowIndex = (sc.spec.arrowPositions.length : Int) - 1 →
        sc.moveArrowDown.currentArrowIndex = 0)) ∧
    ((∀ ov, sc.activeOverlay = some ov → ov.visible = false) →
      sc.moveArrowUp.currentArrowIndex = sc.currentArrowIndex ∧
      sc.moveArrowDown.currentArrowIndex = sc.currentArrowIndex) := by
  refine ⟨applyArrowMoves_index_range moves sc h0 h1, ?_, ?_⟩
  · intro ov hov hvis
    have hn : (0 : Int) < (sc.spec.arrowPositions.length : Int) := by omega
    have hnnil : sc.spec.arrowPositions ≠ [] := by
      intro he
      rw [he] at hn
      simp at hn
    have hne : sc.spec.arrowPositions.isEmpty = false := by
      cases hl : sc.spec.arrowPositions.isEmpty with
      | false => rfl
      | true => exact absurd (List.isEmpty_iff.1 hl) hnnil
    constructor
    · intro hidx
      unfold SceneRT.moveArrowUp
      rw [hov]
      simp only [hvis, Bool.not_true, if_false, hne, hidx, Bool.false_eq_true]
      show ((0 : Int) - 1) % (sc.spec.arrowPositions.length : Int) =
        (sc.spec.arrowPositions.length : Int) - 1
      have hcalc : ((0 : Int) - 1) % (sc.spec.arrowPositions.length : Int) =
          ((sc.spec.arrowPositions.length : Int) - 1) %
            (sc.spec.arrowPositions.length : Int) := by
        have := Int.add_mul_emod_self_left (a := (0 : Int) - 1)
          (b := (sc.spec.arrowPositions.length : Int)) (c := 1)
        calc ((0 : Int) - 1) % (sc.spec.arrowPositions.length : Int)
            = ((0 : Int) - 1 + (sc.spec.arrowPositions.length : Int) * 1) %
                (sc.spec.arrowPositions.length : Int) := this.symm
          _ = ((sc.spec.arrowPositions.length : Int) - 1) %
                (sc.spec.arrowPositions.length : Int) := by ring_nf
      rw [hcalc]
      exact Int.emod_eq_of_lt (by omega) (by omega)
    · intro hidx
      unfold SceneRT.moveArrowDown
      rw [hov]
      simp only [hvis, Bool.not_true, if_false, hne, hidx, Bool.false_eq_true]
      show ((sc.spec.arrowPositions.length : Int) - 1 + 1) %
          (sc.spec.arrowPositions.length : Int) = 0
      have : (sc.spec.arrowPositions.length : Int) - 1 + 1 =
          (sc.spec.arrowPositions.length : Int) := by ring
      rw [this]
      exact Int.emod_self
  · intro hinvis
    constructor
    · unfold SceneRT.moveArrowUp
      cases hov : sc.activeOverlay with
      | none => rfl
      | some ov =>
        have hv := hinvis ov hov
        simp [hv]
    · unfold SceneRT.moveArrowDown
      cases hov : sc.activeOverlay with
      | none => rfl
      | some ov =>
        have hv := hinvis ov hov
        simp [hv]

theorem arrow_navigation_invariant_witness :
    0 ≤ (applyArrowMoves [ArrowMove.down, ArrowMove.down, ArrowMove.up]
        ⟨"menu", ⟨[], [], [⟨"arrow", false⟩], [⟨none⟩, ⟨none⟩, ⟨none⟩], [], none, none,
            false, none, none⟩,
          [], [⟨"arrow", false, true⟩], none, 0, none, none, none, 0⟩).currentArrowIndex ∧
    (applyArrowMoves [ArrowMove.down, ArrowMove.down, ArrowMove.up]
        ⟨"menu", ⟨[], [], [⟨"arrow", false⟩], [⟨none⟩, ⟨none⟩, ⟨none⟩], [], none, none,
            false, none, none⟩,
          [], [⟨"arrow", false, true⟩], none, 0, none, none, none, 0⟩).currentArrowIndex <
      (((⟨"menu", ⟨[], [], [⟨"arrow", false⟩], [⟨none⟩, ⟨none⟩, ⟨none⟩], [], none, none,
            false, none, none⟩,
          [], [⟨"arrow", false, true⟩], none, 0, none, none, none,
          0⟩ : SceneRT)).spec.arrowPositions.length : Int) :=
  (arrow_navigation_invariant _ [ArrowMove.down, ArrowMove.down, ArrowMove.up]
    (by decide) (by decide)).1

/-- C10: for a scene whose arrow-position list is empty, `move_arrow_up` and
`move_arrow_down` return before touching any state (in particular before
evaluating `% len(arrow_positions)` with a zero divisor): the scene is
unchanged. -/
theorem arrow_moves_noop_on_empty (sc : SceneRT) (h : sc.spec.arrowPositions = []) :
    sc.moveArrowUp = sc ∧ sc.moveArrowDown = sc := by
  constructor
  · unfold SceneRT.moveArrowUp
    cases hov : sc.activeOverlay with
    | none => rfl
    | some ov =>
      by_cases hv : ov.visible
      · simp [hv, h]
      · simp only [Bool.not_eq_true] at hv
        simp [hv]
  · unfold SceneRT.moveArrowDown
    cases hov : sc.activeOverlay with
    | none => rfl
    | some ov =>
      by_cases hv : ov.visible
      · simp [hv, h]
      · simp only [Bool.not_eq_true] at hv
        simp [hv]

theorem arrow_moves_noop_on_empty_witness :
    (⟨"plain", ⟨[], [], [⟨"arrow", false⟩], [], [], none, none, false, none, none⟩,
        [], [⟨"arrow", false, true⟩], none, 0, none, none, none, 0⟩ : SceneRT).moveArrowUp =
      ⟨"plain", ⟨[], [], [⟨"arrow", false⟩], [], [], none, none, false, none, none⟩,
        [], [⟨"arrow", false, true⟩], none, 0, none, none, none, 0⟩ ∧
    (⟨"plain", ⟨[], [], [⟨"arrow", false⟩], [], [], none, none, false, none, none⟩,
        [], [⟨"arrow", false, true⟩], none, 0, none, none, none, 0⟩ : SceneRT).moveArrowDown =
      ⟨"plain", ⟨[], [], [⟨"arrow", false⟩], [], [], none, none, false, none, none⟩,
        [], [⟨"arrow", false, true⟩], none, 0, none, none, none, 0⟩ :=
  arrow_moves_noop_on_empty _ rfl

/-- C9: `request_scene_transition(name)` with at least one looping owned video
does not fire the switch (second component none), arms every owned layer's
pending-transition flag and stores `name` as the scene's pending transition,
which the next `loopCompleted` event fires (second component `name`) and
clears; with no looping video the forward switch fires immediately and the
scene is untouched. -/
theorem request_transition_defers_or_fires (sc : SceneRT) (name : String) :
    ((∃ vl ∈ sc.videoLayers, vl.loop = true) →
      (sc.requestSceneTransition name).2 = none ∧
      (sc.requestSceneTransition name).1.pendingSceneTransition = some name ∧
      (∀ vl ∈ (sc.requestSceneTransition name).1.videoLayers,
        vl.pendingTransition = true) ∧
      (sc.requestSceneTransition name).1.handleLoopCompleted.2 = some name ∧
      (sc.requestSceneTransition name).1.handleLoopCompleted.1.pendingSceneTransition
        = none) ∧
    ((∀ vl ∈ sc.videoLayers, vl.loop = false) →
      sc.requestSceneTransition name = (sc, some name)) := by
  constructor
  · rintro ⟨vl, hvl, hloop⟩
    have hany : sc.videoLayers.any (fun v => v.loop) = true :=
      List.any_eq_true.2 ⟨vl, hvl, hloop⟩
    unfold SceneRT.requestSceneTransition
    simp only [hany, if_true]
    refine ⟨?_, ?_, ?_, ?_, ?_⟩ <;>
      first
        | rfl
        | trivial
        | (intro v hv
           rcases List.mem_map.1 hv with ⟨w, hw, rfl⟩
           rfl)
  · intro hall
    have hany : sc.videoLayers.any (fun v => v.loop) = false := by
      rw [List.any_eq_false]
      intro v hv
      simp [hall v hv]
    unfold SceneRT.requestSceneTransition
    simp [hany]

theorem request_transition_defers_or_fires_witness :
    ((⟨"loops", ⟨[⟨"v.mp4", true, 0⟩], [], [], [], [], none, none, false, none, none⟩,
        [⟨"v.mp4", true, 0, 0, true, true, false, true⟩], [], none, 0, none, none, none,
        0⟩ : SceneRT).requestSceneTransition "next").2 = none ∧
    (⟨"still", ⟨[], [], [], [], [], none, none, false, none, none⟩,
        [], [], none, 0, none, none, none, 1⟩ : SceneRT).requestSceneTransition "next" =
      (⟨"still", ⟨[], [], [], [], [], none, none, false, none, none⟩,
        [], [], none, 0, none, none, none, 1⟩, some "next") :=
  ⟨((request_transition_defers_or_fires _ "next").1
      ⟨⟨"v.mp4", true, 0, 0, true, true, false, true⟩, by simp, rfl⟩).1,
   (request_transition_defers_or_fires _ "next").2 (by simp)⟩

/-! ### SceneManager model (scene.py `SceneManager`) -/

/-- External media backend: the duration the decoder reports for a video file
and the currently decoded frame its sink can deliver (none when no valid frame
is available). -/
structure MediaEnv where
  duration : String → Nat
  frame : String → Option Pixmap

/-- State owned by the `SceneManager` (scene.py lines 392-413): the scenes
folder content (`files`, the fixed filesystem), the scene cache, the record of
each scene's original video layers (only its truthiness is ever consulted,
line 576), the current-scene pointer (scenes live in the cache, the pointer is
the name), the current audio filename set, the audio registry, the viewport of
the attached view (none when `graphics_scene.views()` is empty), and the
fresh-id counter for Scene construction. -/
structure ManagerState where
  files : String → Option SceneDef
  loadedScenes : List (String × SceneRT)
  originalHasVideos : List (String × Bool)
  currentScene : Option String
  currentAudioFiles : List String
  audio : AudioState
  viewport : Option (ℚ × ℚ)
  nextInstId : Nat

/-- Mutate the cached scene stored under `name` in place. -/
def updateScene (st : ManagerState) (name : String) (f : SceneRT → SceneRT) :
    ManagerState :=
  { st with loadedScenes := setKey st.loadedScenes name f }

/-- `SceneManager._load_scene` (scene.py lines 448-476): cache hit returns the
cached instance unchanged; a missing definition file returns none with no
state change; otherwise the scene is built, its original video layers
recorded, and the instance cached. -/
def loadScene (name : String) (st : ManagerState) : Option SceneRT × ManagerState :=
  match lookupKey st.loadedScenes name with
  | some sc => (some sc, st)
  | none =>
    match st.files name with
    | none => (none, st)
    | some spec =>
      let sc := buildScene name spec st.nextInstId
      (some sc,
       { st with
         loadedScenes := st.loadedScenes ++ [(name, sc)],
         originalHasVideos := st.originalHasVideos ++ [(name, !sc.videoLayers.isEmpty)],
         nextInstId := st.nextInstId + 1 })

/-- The position the Qt player reports as duration: zero while no media is
loaded (`mediaStatus() == NoMedia`), the decoder's duration once loaded. -/
def playerDuration (env : MediaEnv) (vl : VideoLayerState) : Nat :=
  if vl.mediaLoaded then env.duration vl.file else 0

/-- Forward-navigation seek-to-end before frame capture (scene.py lines
646-670): seek only when the video is more than 100ms before its end. -/
def seekToEndForward (env : MediaEnv) (vl : VideoLayerState) : VideoLayerState :=
  let d := playerDuration env vl
  if 0 < d ∧ vl.position < d - 100 then { vl with position := d } else vl

/-- Backward-navigation seek-to-end before frame capture (scene.py lines
596-635): seek to the exact end whenever the player reports a duration. -/
def seekToEndBack (env : MediaEnv) (vl : VideoLayerState) : VideoLayerState :=
  if 0 < playerDuration env vl then { vl with position := playerDuration env vl } else vl

/-- Frame capture loop (scene.py lines 677-719): take the first layer whose
sink has a valid frame convertible to an image. -/
def captureFrame (env : MediaEnv) : List VideoLayerState → Option Pixmap
  | [] => none
  | vl :: rest =>
    match env.frame vl.file with
    | some px => some px
    | none => captureFrame env rest

/-- `SceneManager._resize_static_background` (scene.py lines 784-822): with a
background, an attached view and positive pixmap dimensions, apply the uniform
aspect-fit scale `min(viewport_w / img_w, viewport_h / img_h)` and center the
scaled image in the viewport. -/
def resizeBackground (viewport : Option (ℚ × ℚ)) (sc : SceneRT) : SceneRT :=
  match sc.inheritedBackground, viewport with
  | some bg, some vp =>
    if bg.pix.w = 0 ∨ bg.pix.h = 0 then sc
    else
      let scaleW : ℚ := vp.1 / (bg.pix.w : ℚ)
      let scaleH : ℚ := vp.2 / (bg.pix.h : ℚ)
      let s : ℚ := min scaleW scaleH
      { sc with inheritedBackground := some { bg with
          scale := s,
          posX := (vp.1 - (bg.pix.w : ℚ) * s) / 2,
          posY := (vp.2 - (bg.pix.h : ℚ) * s) / 2 } }
  | _, _ => sc

/-- Candidate next scenes gathered by `_preload_next_scenes` (scene.py lines
824-853).  The source collects them in an unordered Python set; the model
fixes insertion order (auto-transition, arrow targets, back scene) and
deduplicates, which the claims do not depend on. -/
def preloadTargets (sc : SceneRT) : List String :=
  ((match sc.autoTransition with | some n => [n] | none => []) ++
   sc.spec.arrowPositions.filterMap (fun p => p.scene) ++
   (match sc.spec.backScene with | some n => [n] | none => [])).dedup

/-- Load one candidate scene and preload-then-hide its video layers
(scene.py lines 847-853). -/
def preloadSceneVideos (st : ManagerState) (name : String) : ManagerState :=
  let r := loadScene name st
  match r.1 with
  | some _ =>
    updateScene r.2 name (fun s =>
      { s with videoLayers := s.videoLayers.map (fun vl =>
          { vl with mediaLoaded := true, visible := false }) })
  | none => r.2

/-- `SceneManager._preload_next_scenes` (scene.py lines 824-853). -/
def preloadNextScenes (st : ManagerState) : ManagerState :=
  match st.currentScene with
  | none => st
  | some c =>
    match lookupKey st.loadedScenes c with
    | none => st
    | some cs => (preloadTargets cs).foldl preloadSceneVideos st

/-- A background freshly installed from a captured frame (scene.py lines
692-704): unscaled, positioned at the origin. -/
def freshBackground (px : Pixmap) : Background :=
  { pix := px, scale := 1, posX := 0, posY := 0 }

/-- `SceneManager._complete_transition` (scene.py lines 516-779) up to the
current-pointer update, in source order: the audio stop/deregister pass; the video-inheritance decision (based
on the scene's *original* video layers and the current scene's layers); for an
inheriting target, source selection (backward: the target's `back_scene` if
loadable, else the current scene; forward: the current scene) with a forced
seek to the end, frame capture and background install plus the initial resize
when a view is attached, then stop-and-hide of the current scene's (and a
distinct source's) layers; for a non-inheriting target, background removal and
stop-and-hide of the old scene's layers; then `Scene.start` (audio
reconciliation, overlay/arrow reset, video restart unless inheriting), the
unconditional static-background resize, the old scene's `stop()` unless video
was inherited, and the current-pointer update.  `previous_audio` is computed
and passed to `start` but never read there; the timed waits around seeks move
no tracked state. -/
def completeTransitionCore (env : MediaEnv) (newName : String) (isBack : Bool)
    (st : ManagerState) : ManagerState :=
  match lookupKey st.loadedScenes newName with
  | none => st
  | some newScene =>
    let newAudioFiles := newScene.spec.audio.map AudioSpec.file
    let st₁ : ManagerState := { st with audio := stopAbsent newAudioFiles st.audio }
    let hasOwnVideos := (lookupKey st₁.originalHasVideos newName).getD false
    let currentHasVideo :=
      match st₁.currentScene with
      | some c =>
        match lookupKey st₁.loadedScenes c with
        | some cs => !cs.videoLayers.isEmpty
        | none => false
      | none => false
    let inheritVideo := !hasOwnVideos && currentHasVideo
    let st₂ :=
      if inheritVideo then
        let src : Option String × ManagerState :=
          if isBack then
            match newScene.spec.backScene with
            | some b =>
              let r := loadScene b st₁
              match r.1 with
              | some _ =>
                (some b, updateScene r.2 b (fun s =>
                  { s with videoLayers := s.videoLayers.map (seekToEndBack env) }))
              | none => (none, r.2)
            | none => (st₁.currentScene, st₁)
          else
            match st₁.currentScene with
            | some c =>
              (some c, updateScene st₁ c (fun s =>
                { s with videoLayers := s.videoLayers.map (seekToEndForward env) }))
            | none => (none, st₁)
        let st₃ := src.2
        let st₄ :=
          match src.1 with
          | none => st₃
          | some srcName =>
            match lookupKey st₃.loadedScenes srcName with
            | none => st₃
            | some srcScene =>
              if srcScene.videoLayers.isEmpty then st₃
              else
                match captureFrame env srcScene.videoLayers with
                | some px =>
                  let stb := updateScene st₃ newName (fun s =>
                    { s with inheritedBackground := some (freshBackground px) })
                  if stb.viewport.isSome then
                    updateScene stb newName (resizeBackground stb.viewport)
                  else stb
                | none => st₃
        let st₅ :=
          match st₄.currentScene with
          | some c => updateScene st₄ c (fun s =>
              { s with videoLayers := s.videoLayers.map stopHideLayer })
          | none => st₄
        match src.1 with
        | some srcName =>
          if st₅.currentScene = some srcName then st₅
          else updateScene st₅ srcName (fun s =>
              { s with videoLayers := s.videoLayers.map stopHideLayer })
        | none => st₅
      else
        let st₃ := updateScene st₁ newName (fun s => { s with inheritedBackground := none })
        match st₃.currentScene with
        | some c =>
          if c = newName then st₃
          else updateScene st₃ c (fun s =>
            { s with inheritedBackground := none,
                     videoLayers := s.videoLayers.map stopHideLayer })
        | none => st₃
    let st₅ :=
      match lookupKey st₂.loadedScenes newName with
      | none => st₂
      | some ns =>
        let r := ns.start isBack inheritVideo st₂.audio
        { updateScene st₂ newName (fun _ => r.1) with
          audio := r.2.1, currentAudioFiles := r.2.2 }
    let st₆ := updateScene st₅ newName (resizeBackground st₅.viewport)
    let st₇ :=
      match st₆.currentScene with
      | some c =>
        if c = newName then st₆
        else if inheritVideo then st₆
        else updateScene st₆ c SceneRT.stopScene
      | none => st₆
    { st₇ with currentScene := some newName }

/-- `SceneManager._complete_transition` in full: the core steps followed by the
final `_preload_next_scenes` call (scene.py line 782).  The core's
missing-scene guard exists only for totality; `_complete_transition` is always
invoked with a loadable scene. -/
def completeTransition (env : MediaEnv) (newName : String) (isBack : Bool)
    (st : ManagerState) : ManagerState :=
  preloadNextScenes (completeTransitionCore env newName isBack st)

/-- `SceneManager._switch_to_internal` (scene.py lines 488-514): load the
target scene; abort with no state change when it cannot be loaded; transition
immediately when the scene has video layers that all have media loaded,
otherwise preload every layer first (the 50ms single-shot timer firing is
modelled as the deferred `_complete_transition` call happening). -/
def switchToInternal (env : MediaEnv) (name : String) (isBack : Bool)
    (st : ManagerState) : ManagerState :=
  let r := loadScene name st
  match r.1 with
  | none => r.2
  | some newScene =>
    let needsPreload := newScene.videoLayers.any (fun vl => !vl.mediaLoaded)
    if !needsPreload && !newScene.videoLayers.isEmpty then
      completeTransition env name isBack r.2
    else
      completeTransition env name isBack
        (updateScene r.2 name (fun s =>
          { s with videoLayers := s.videoLayers.map VideoLayerState.preload }))

/-- `SceneManager.switch_to_forward` (scene.py lines 478-481). -/
def switchToForward (env : MediaEnv) (name : String) (st : ManagerState) : ManagerState :=
  switchToInternal env name false st

/-- `SceneManager.switch_to_back` (scene.py lines 483-486). -/
def switchToBack (env : MediaEnv) (name : String) (st : ManagerState) : ManagerState :=
  switchToInternal env name true st

/-- Cache consistency: every cached scene name has a definition file.  This
holds for every reachable manager state because `_load_scene` caches a scene
only after its file passed the existence check, and the model's filesystem is
fixed. -/
def cacheConsistent (st : ManagerState) : Prop :=
  ∀ n, (lookupKey st.loadedScenes n).isSome → (st.files n).isSome

/-! ### Claims C6, C7 -/

/-- C6: switching to a scene whose definition file does not exist aborts the
transition with no state change at all: the whole manager state (current-scene
pointer, audio registry, current audio-file set, every cached scene and its
layers) is exactly what it was. -/
theorem missing_scene_aborts_transition (env : MediaEnv) (name : String)
    (isBack : Bool) (st : ManagerState) (hcons : cacheConsistent st)
    (hmissing : st.files name = none) :
    switchToInternal env name isBack st = st := by
  have hcache : lookupKey st.loadedScenes name = none := by
    cases h : lookupKey st.loadedScenes name with
    | none => rfl
    | some sc =>
      have hsome := hcons name (by simp [h])
      rw [hmissing] at hsome
      simp at hsome
  have hload : loadScene name st = (none, st) := by
    unfold loadScene
    rw [hcache, hmissing]
  unfold switchToInternal
  rw [hload]

theorem missing_scene_aborts_transition_witness :
    switchToInternal ⟨fun _ => 0, fun _ => none⟩ "missing" false
        ⟨fun _ => none, [], [], none, [], ⟨[], 0⟩, none, 0⟩ =
      ⟨fun _ => none, [], [], none, [], ⟨[], 0⟩, none, 0⟩ :=
  missing_scene_aborts_transition ⟨fun _ => 0, fun _ => none⟩ "missing" false
    ⟨fun _ => none, [], [], none, [], ⟨[], 0⟩, none, 0⟩
    (fun n h => by simp [lookupKey] at h) rfl

theorem loadScene_lookup_after {name : String} {st st₁ : ManagerState} {sc : SceneRT}
    (h : loadScene name st = (some sc, st₁)) :
    lookupKey st₁.loadedScenes name = some sc := by
  unfold loadScene at h
  cases hcache : lookupKey st.loadedScenes name with
  | some sc' =>
    rw [hcache] at h
    simp at h
    rw [h.2] at hcache
    rw [h.1] at hcache
    exact hcache
  | none =>
    rw [hcache] at h
    cases hfile : st.files name with
    | none => rw [hfile] at h; simp at h
    | some spec =>
      rw [hfile] at h
      simp at h
      rw [← h.2]
      simp only
      rw [lookupKey_append_of_none hcache]
      simp [lookupKey, h.1]

/-- C7: a scene is parsed and instantiated at most once.  A first load of an
uncached name whose file exists builds the instance from the file's spec and
caches it; any load that returns an instance leaves the state so that loading
the same name again returns the identical instance with no state change (the
cache never evicts). -/
theorem scene_cache_load_once (st : ManagerState) (name : String) :
    (∀ spec, st.files name = some spec → lookupKey st.loadedScenes name = none →
      ∃ st₁, loadScene name st = (some (buildScene name spec st.nextInstId), st₁) ∧
        lookupKey st₁.loadedScenes name = some (buildScene name spec st.nextInstId)) ∧
    (∀ sc st₁, loadScene name st = (some sc, st₁) →
      loadScene name st₁ = (some sc, st₁)) := by
  constructor
  · intro spec hfile hcache
    have hload : loadScene name st =
        (some (buildScene name spec st.nextInstId),
         { st with
           loadedScenes :=
             st.loadedScenes ++ [(name, buildScene name spec st.nextInstId)],
           originalHasVideos := st.originalHasVideos ++
             [(name, !(buildScene name spec st.nextInstId).videoLayers.isEmpty)],
           nextInstId := st.nextInstId + 1 }) := by
      unfold loadScene
      rw [hcache, hfile]
    refine ⟨_, hload, loadScene_lookup_after hload⟩
  · intro sc st₁ h
    have hl := loadScene_lookup_after h
    unfold loadScene
    rw [hl]

theorem scene_cache_load_once_witness :
    loadScene "a"
        ((loadScene "a" ⟨fun n => if n = "a" then some {} else none,
            [], [], none, [], ⟨[], 0⟩, none, 5⟩).2) =
      (some (buildScene "a" {} 5),
       (loadScene "a" ⟨fun n => if n = "a" then some {} else none,
            [], [], none, [], ⟨[], 0⟩, none, 5⟩).2) := by
  have h := (scene_cache_load_once ⟨fun n => if n = "a" then some {} else none,
      [], [], none, [], ⟨[], 0⟩, none, 5⟩ "a").2 (buildScene "a" {} 5)
    ((loadScene "a" ⟨fun n => if n = "a" then some {} else none,
        [], [], none, [], ⟨[], 0⟩, none, 5⟩).2) (by rfl)
  exact h

/-! ### Claim C8 -/

theorem preloadSceneVideos_bg_preserved {st : ManagerState} {m : String} {sc : SceneRT}
    (h : lookupKey st.loadedScenes m = some sc) (name : String) :
    ∃ sc', lookupKey (preloadSceneVideos st name).loadedScenes m = some sc' ∧
      sc'.inheritedBackground = sc.inheritedBackground := by
  unfold preloadSceneVideos loadScene
  cases hcache : lookupKey st.loadedScenes name with
  | some sc₀ =>
    simp only [updateScene]
    rw [lookupKey_setKey]
    by_cases hm : name = m
    · subst hm
      rw [if_pos rfl, h]
      exact ⟨_, rfl, rfl⟩
    · rw [if_neg hm]
      exact ⟨sc, h, rfl⟩
  | none =>
    cases hfile : st.files name with
    | none => exact ⟨sc, h, rfl⟩
    | some spec =>
      have hnm : name ≠ m := by
        intro he
        rw [he, h] at hcache
        exact Option.noConfusion hcache
      simp only [updateScene]
      rw [lookupKey_setKey, if_neg hnm]
      exact ⟨sc, lookupKey_append_of_some h _, rfl⟩

theorem preloadFold_bg_preserved (names : List String) {st : ManagerState}
    {m : String} {sc : SceneRT} (h : lookupKey st.loadedScenes m = some sc) :
    ∃ sc', lookupKey (names.foldl preloadSceneVideos st).loadedScenes m = some sc' ∧
      sc'.inheritedBackground = sc.inheritedBackground := by
  induction names generalizing st sc with
  | nil => exact ⟨sc, h, rfl⟩
  | cons a rest ih =>
    rcases preloadSceneVideos_bg_preserved h a with ⟨sc₁, h₁, hbg₁⟩
    rcases ih h₁ with ⟨sc₂, h₂, hbg₂⟩
    exact ⟨sc₂, h₂, hbg₂.trans hbg₁⟩

theorem preloadNextScenes_bg_preserved {st : ManagerState} {m : String} {sc : SceneRT}
    (h : lookupKey st.loadedScenes m = some sc) :
    ∃ sc', lookupKey (preloadNextScenes st).loadedScenes m = some sc' ∧
      sc'.inheritedBackground = sc.inheritedBackground := by
  unfold preloadNextScenes
  cases hcur : st.currentScene with
  | none => exact ⟨sc, h, rfl⟩
  | some c =>
    dsimp only
    cases hc : lookupKey st.loadedScenes c with
    | none => dsimp only; exact ⟨sc, h, rfl⟩
    | some cs => dsimp only; exact preloadFold_bg_preserved _ h

theorem inherited_background_core
    (env : MediaEnv) (st : ManagerState) (newName cname : String)
    (ns cs : SceneRT) (px : Pixmap) (vw vh : ℚ)
    (h1 : lookupKey st.loadedScenes newName = some ns)
    (h2 : (lookupKey st.originalHasVideos newName).getD false = false)
    (h3 : st.currentScene = some cname)
    (h4 : cname ≠ newName)
    (h5 : lookupKey st.loadedScenes cname = some cs)
    (h6 : cs.videoLayers.isEmpty = false)
    (h7 : captureFrame env (cs.videoLayers.map (seekToEndForward env)) = some px)
    (h8 : st.viewport = some (vw, vh))
    (h9 : px.w ≠ 0) (h10 : px.h ≠ 0) :
    ∃ ns', lookupKey (completeTransitionCore env newName false st).loadedScenes newName
        = some ns' ∧
      ns'.inheritedBackground = some
        { pix := px,
          scale := min (vw / (px.w : ℚ)) (vh / (px.h : ℚ)),
          posX := (vw - (px.w : ℚ) * min (vw / (px.w : ℚ)) (vh / (px.h : ℚ))) / 2,
          posY := (vh - (px.h : ℚ) * min (vw / (px.w : ℚ)) (vh / (px.h : ℚ))) / 2 } := by
  unfold completeTransitionCore
  rw [h1]
  dsimp only
  rw [h2, h3]
  have h6' : (List.map (seekToEndForward env) cs.videoLayers).isEmpty = false := by
    cases hvl : cs.videoLayers with
    | nil => rw [hvl] at h6; simp at h6
    | cons a l => rfl
  simp only [h1, h5, h6, h6', h7, h8, h4, h9, h10, updateScene, lookupKey_setKey,
    Bool.not_false, Bool.not_true, Bool.false_eq_true, if_false, Bool.and_true,
    Bool.true_and, Bool.and_self, if_true, Option.map_some', Option.isSome_some,
    eq_self_iff_true, ne_eq, not_false_iff, or_self, or_false, false_or,
    SceneRT.start, resizeBackground, freshBackground]
  exact ⟨_, rfl, rfl⟩

/-- C8 (amended): a forward transition into a scene with no video layers of
its own, from a current scene that has video layers, installs a non-null
inherited background on the target *provided a valid frame is capturable*,
scaled with the uniform aspect-fit rule
`scale = min(viewport_w / width, viewport_h / height)` and centered in the
viewport. -/
theorem inherited_background_on_forward
    (env : MediaEnv) (st : ManagerState) (newName cname : String)
    (ns cs : SceneRT) (px : Pixmap) (vw vh : ℚ)
    (h1 : lookupKey st.loadedScenes newName = some ns)
    (h2 : (lookupKey st.originalHasVideos newName).getD false = false)
    (h3 : st.currentScene = some cname)
    (h4 : cname ≠ newName)
    (h5 : lookupKey st.loadedScenes cname = some cs)
    (h6 : cs.videoLayers.isEmpty = false)
    (h7 : captureFrame env (cs.videoLayers.map (seekToEndForward env)) = some px)
    (h8 : st.viewport = some (vw, vh))
    (h9 : px.w ≠ 0) (h10 : px.h ≠ 0) :
    ∃ ns', lookupKey (completeTransition env newName false st).loadedScenes newName
        = some ns' ∧
      ns'.inheritedBackground = some
        { pix := px,
          scale := min (vw / (px.w : ℚ)) (vh / (px.h : ℚ)),
          posX := (vw - (px.w : ℚ) * min (vw / (px.w : ℚ)) (vh / (px.h : ℚ))) / 2,
          posY := (vh - (px.h : ℚ) * min (vw / (px.w : ℚ)) (vh / (px.h : ℚ))) / 2 } := by
  rcases inherited_background_core env st newName cname ns cs px vw vh
    h1 h2 h3 h4 h5 h6 h7 h8 h9 h10 with ⟨ns₃, hl, hbg⟩
  unfold completeTransition
  rcases preloadNextScenes_bg_preserved hl with ⟨ns', hl', hbg'⟩
  exact ⟨ns', hl', hbg'.trans hbg⟩

theorem inherited_background_on_forward_witness :
    ∃ ns', lookupKey (completeTransition ⟨fun _ => 0, fun _ => some ⟨640, 360⟩⟩ "B" false
        ⟨fun _ => none,
         [("A", buildScene "A" { videos := [{ file := "v.mp4" }] } 0),
          ("B", buildScene "B" {} 1)],
         [("A", true), ("B", false)], some "A", [], ⟨[], 0⟩,
         some ((1920 : ℚ), (1080 : ℚ)), 2⟩).loadedScenes "B" = some ns' ∧
      ns'.inheritedBackground = some
        { pix := ⟨640, 360⟩,
          scale := min ((1920 : ℚ) / ((640 : Nat) : ℚ)) ((1080 : ℚ) / ((360 : Nat) : ℚ)),
          posX := ((1920 : ℚ) - ((640 : Nat) : ℚ) *
            min ((1920 : ℚ) / ((640 : Nat) : ℚ)) ((1080 : ℚ) / ((360 : Nat) : ℚ))) / 2,
          posY := ((1080 : ℚ) - ((360 : Nat) : ℚ) *
            min ((1920 : ℚ) / ((640 : Nat) : ℚ)) ((1080 : ℚ) / ((360 : Nat) : ℚ))) / 2 } :=
  inherited_background_on_forward ⟨fun _ => 0, fun _ => some ⟨640, 360⟩⟩
    ⟨fun _ => none,
     [("A", buildScene "A" { videos := [{ file := "v.mp4" }] } 0),
      ("B", buildScene "B" {} 1)],
     [("A", true), ("B", false)], some "A", [], ⟨[], 0⟩,
     some ((1920 : ℚ), (1080 : ℚ)), 2⟩ "B" "A"
    (buildScene "B" {} 1) (buildScene "A" { videos := [{ file := "v.mp4" }] } 0)
    ⟨640, 360⟩ 1920 1080 rfl rfl rfl (by decide) rfl rfl rfl rfl
    (by decide) (by decide)

/-- C8 counterexample to the claim as stated: the same forward transition with
no valid decoded frame available leaves the target scene with a null
background (the code logs the capture failure and proceeds backgroundless),
so a transition into a video-less scene from a video-bearing predecessor does
not always install a non-null inherited background. -/
theorem inherited_background_capture_failure :
    (lookupKey (completeTransition ⟨fun _ => 0, fun _ => none⟩ "B" false
        ⟨fun _ => none,
         [("A", buildScene "A" { videos := [{ file := "v.mp4" }] } 0),
          ("B", buildScene "B" {} 1)],
         [("A", true), ("B", false)], some "A", [], ⟨[], 0⟩,
         some ((1920 : ℚ), (1080 : ℚ)), 2⟩).loadedScenes "B").map
      SceneRT.inheritedBackground = some none := rfl
